import Mathlib

/-!
Verification of the SpecWeaver schema codec (src/components/Converter.tsx):
a shallow embedding of `resolveSchema`, `flattenSchema`, `unflattenSchema`
and `validateSpecFidelity`, together with theorems settling the frozen
claims about them.

Modelling conventions:
* JavaScript objects holding schema data are embedded as an inductive with
  one `Option`-typed field per property that the source reads or writes.
* JavaScript string truthiness (`if (s)`) is `jsTruthy`: a present,
  non-empty string.  Array and object values are truthy whenever present
  (`Option.isSome`), matching JS where `[]` and `{}` are truthy.
* `flattenSchema` recurses through the component registry, so it is not
  structurally recursive; it takes a fuel argument and returns `none` when
  the fuel runs out.  On inputs where the JS function terminates, a large
  enough fuel yields `some rows`.
* `unflattenSchema` mutates a cursor and can throw a `TypeError` (setting
  a property of `undefined`); it is embedded in `Except String`, where
  `.error` marks the thrown exception that aborts the whole call.
-/

namespace SpecWeaver

/-- One flattened row, mirroring `FlatSchemaRow` in the source. -/
structure FlatRow where
  path : String
  type : String
  required : Bool
  description : String
  enum : Option (List String)
  exampleVal : Option String
  ref : Option String
deriving DecidableEq, Repr

/-- A schema node: one `Option` field per JS object property that the
converter reads (`$ref`, `type`, `description`, `enum`, `example`,
`properties`, `required`, `additionalProperties`, `items`, `allOf`,
`oneOf`, `anyOf`) plus the two annotations written by `resolveSchema`
(`_resolvedFrom`, `_originalRef`).  `additionalProperties` is a boolean or
a schema, as in JSON Schema. -/
inductive Schema where
  | mk (ref type description : Option String)
       (enum : Option (List String))
       (exampleVal : Option String)
       (properties : Option (List (String × Schema)))
       (required : Option (List String))
       (additionalProperties : Option (Bool ⊕ Schema))
       (items : Option Schema)
       (allOf oneOf anyOf : Option (List Schema))
       (resolvedFrom originalRef : Option String)

def Schema.ref : Schema → Option String
  | .mk r _ _ _ _ _ _ _ _ _ _ _ _ _ => r

def Schema.type : Schema → Option String
  | .mk _ t _ _ _ _ _ _ _ _ _ _ _ _ => t

def Schema.description : Schema → Option String
  | .mk _ _ d _ _ _ _ _ _ _ _ _ _ _ => d

def Schema.enum : Schema → Option (List String)
  | .mk _ _ _ e _ _ _ _ _ _ _ _ _ _ => e

def Schema.exampleVal : Schema → Option String
  | .mk _ _ _ _ x _ _ _ _ _ _ _ _ _ => x

def Schema.properties : Schema → Option (List (String × Schema))
  | .mk _ _ _ _ _ p _ _ _ _ _ _ _ _ => p

def Schema.required : Schema → Option (List String)
  | .mk _ _ _ _ _ _ q _ _ _ _ _ _ _ => q

def Schema.additionalProperties : Schema → Option (Bool ⊕ Schema)
  | .mk _ _ _ _ _ _ _ a _ _ _ _ _ _ => a

def Schema.items : Schema → Option Schema
  | .mk _ _ _ _ _ _ _ _ i _ _ _ _ _ => i

def Schema.allOf : Schema → Option (List Schema)
  | .mk _ _ _ _ _ _ _ _ _ ao _ _ _ _ => ao

def Schema.oneOf : Schema → Option (List Schema)
  | .mk _ _ _ _ _ _ _ _ _ _ oo _ _ _ => oo

def Schema.anyOf : Schema → Option (List Schema)
  | .mk _ _ _ _ _ _ _ _ _ _ _ an _ _ => an

def Schema.resolvedFrom : Schema → Option String
  | .mk _ _ _ _ _ _ _ _ _ _ _ _ rf _ => rf

/-- `{...registryValue, _resolvedFrom: refName, _originalRef: ref}`. -/
def Schema.annotateResolved : Schema → String → String → Schema
  | .mk r t d e x p q a i ao oo an _ _, name, orig =>
      .mk r t d e x p q a i ao oo an (some name) (some orig)

/-- `resolved = { ...resolved, ...merged }` for the `allOf` merge, where
`merged` always carries `properties` and `required`, and carries
`additionalProperties` only when some branch assigned it. -/
def Schema.applyAllOfMerge :
    Schema → List (String × Schema) → List String → Option (Bool ⊕ Schema) → Schema
  | .mk r t d e x _ _ a i ao oo an rf og, props, req, ap =>
      .mk r t d e x (some props) (some req)
        (match ap with | some v => some v | none => a) i ao oo an rf og

/-- JS string truthiness: a present non-empty string. -/
def jsTruthy : Option String → Bool
  | some s => s ≠ ""
  | none => false

/-- JS truthiness of an `additionalProperties` value: `false` is falsy,
`true` and every object are truthy. -/
def apTruthy : Option (Bool ⊕ Schema) → Bool
  | some (.inl b) => b
  | some (.inr _) => true
  | none => false

/-- `s || ''`. -/
def strOrEmpty (d : Option String) : String := d.getD ""

/-- `schema.type || (schema.properties ? 'object' : 'string')`, including
the JS quirk that an explicit empty-string type is falsy. -/
def jsType (s : Schema) : String :=
  match s.type with
  | some t => if t = "" then (if s.properties.isSome then "object" else "string") else t
  | none => if s.properties.isSome then "object" else "string"

/-- `s.split(c)` for a single-character separator, JS semantics
(`"".split('.') = [""]`, trailing separators yield empty segments). -/
def splitOnCharAux (c : Char) : List Char → List Char → List String
  | [], acc => [String.mk acc.reverse]
  | x :: xs, acc =>
      if x == c then String.mk acc.reverse :: splitOnCharAux c xs []
      else splitOnCharAux c xs (x :: acc)

def splitOnChar (c : Char) (s : String) : List String := splitOnCharAux c s.data []

def strStartsWithL : List Char → List Char → Bool
  | _, [] => true
  | [], _ :: _ => false
  | a :: as, b :: bs => a == b && strStartsWithL as bs

/-- `s.startsWith(p)`. -/
def strStartsWith (s p : String) : Bool := strStartsWithL s.data p.data

/-- `s.endsWith(p)`. -/
def strEndsWith (s p : String) : Bool := strStartsWithL s.data.reverse p.data.reverse

/-- `s.slice(0, -n)` for `n ≤ s.length`. -/
def strDropRight (s : String) (n : Nat) : String :=
  String.mk (s.data.take (s.data.length - n))

/-- `s.toUpperCase()` (ASCII, as used for HTTP method names). -/
def strToUpper (s : String) : String := String.mk (s.data.map Char.toUpper)

/-- Lookup in a JS object used as a string-keyed map (first match). -/
def lookupStr {α : Type} : List (String × α) → String → Option α
  | [], _ => none
  | (k, v) :: rest, n => if k = n then some v else lookupStr rest n

/-- One step of `Object.assign`: existing keys keep their position and take
the new value, new keys are appended. -/
def assignOne (base : List (String × Schema)) (kv : String × Schema) :
    List (String × Schema) :=
  if base.any (fun p => p.1 = kv.1) then
    base.map (fun p => if p.1 = kv.1 then (p.1, kv.2) else p)
  else base ++ [kv]

/-- `Object.assign(base, updates)` over ordered string-keyed maps. -/
def jsAssign (base updates : List (String × Schema)) : List (String × Schema) :=
  updates.foldl assignOne base

/-- The component registry `rootSpec.components.schemas` as an ordered map. -/
def Registry : Type := List (String × Schema)

/-- `resolveSchema(schema, rootSpec)`: if the node carries a truthy `$ref`,
take the final `/`-segment of the pointer and look it up in the registry;
on success return the registry node annotated with `_resolvedFrom` and
`_originalRef`, otherwise return the node unchanged (shallow copy). -/
def resolveSchema (schema : Schema) (reg : Registry) : Schema :=
  match schema.ref with
  | some r =>
      if r = "" then schema
      else
        let refName := (splitOnChar '/' r).getLastD ""
        match lookupStr reg refName with
        | some s => s.annotateResolved refName r
        | none => schema
  | none => schema

/-- The `allOf` merge loop: fold the branches in array order, resolving
each, `Object.assign`-ing `properties`, concatenating `required`, and
letting a truthy `additionalProperties` of a later branch win. -/
def allOfMerge (reg : Registry) (branches : List Schema) :
    List (String × Schema) × List String × Option (Bool ⊕ Schema) :=
  branches.foldl
    (fun acc s =>
      let rs := resolveSchema s reg
      let props := match rs.properties with
        | some ps => jsAssign acc.1 ps
        | none => acc.1
      let req := match rs.required with
        | some rq => acc.2.1 ++ rq
        | none => acc.2.1
      let ap := if apTruthy rs.additionalProperties then rs.additionalProperties else acc.2.2
      (props, req, ap))
    ([], [], none)

/-- The body of one `flattenSchema` invocation, with the recursive calls
abstracted as `recur` (they receive the remaining fuel). -/
def flattenBody
    (recur : Schema → String → Bool → List FlatRow → List String → Option (List FlatRow))
    (reg : Registry) (schema : Schema) (currentPath : String) (isRequired : Bool)
    (rows0 : List FlatRow) (visited0 : List String) : Option (List FlatRow) :=
    let originalRef := schema.ref
    let resolved0 := resolveSchema schema reg
    let isCycle := match resolved0.resolvedFrom with
      | some name => visited0.contains name
      | none => false
    if isCycle then
      some (rows0 ++ [⟨currentPath, "Recursive (" ++ resolved0.resolvedFrom.getD "" ++ ")",
        isRequired, "Recursive reference detected", none, none, originalRef⟩])
    else
      let visited := match resolved0.resolvedFrom with
        | some name => visited0 ++ [name]
        | none => visited0
      let resolved := match resolved0.allOf with
        | some branches =>
            let m := allOfMerge reg branches
            resolved0.applyAllOfMerge m.1 m.2.1 m.2.2
        | none => resolved0
      do
      let rows1 ← match resolved.oneOf <|> resolved.anyOf with
        | some branches =>
            branches.foldlM
              (fun rs s => recur s currentPath isRequired rs visited)
              rows0
        | none => some rows0
      let ty := jsType resolved
      let desc := strOrEmpty resolved.description
      let rows2 :=
        if currentPath ≠ "" ∨ jsTruthy originalRef = true ∨ ty = "array" then
          if currentPath ≠ "" ∨ ty ≠ "object" ∨ jsTruthy originalRef = true then
            if rows1.any (fun r => r.path = currentPath ∧ r.type = ty ∧ r.description = desc)
            then rows1
            else rows1 ++ [⟨currentPath, ty, isRequired, desc,
              resolved.enum, resolved.exampleVal, originalRef⟩]
          else rows1
        else rows1
      let rows3 ← match resolved.properties with
        | some props =>
            let requiredFields := resolved.required.getD []
            props.foldlM
              (fun rs kv =>
                let childPath := if currentPath = "" then kv.1
                  else currentPath ++ "." ++ kv.1
                recur kv.2 childPath (requiredFields.contains kv.1) rs visited)
              rows2
        | none => some rows2
      let rows4 ← match resolved.additionalProperties with
        | some (.inr s) =>
            let childPath := if currentPath = "" then "<key>" else currentPath ++ ".<key>"
            recur s childPath false rows3 visited
        | some (.inl b) =>
            if b then
              let childPath := if currentPath = "" then "<key>" else currentPath ++ ".<key>"
              some (rows3 ++ [⟨childPath, "any", false, "Any value allowed", none, none, none⟩])
            else some rows3
        | none => some rows3
      if ty = "array" then
        match resolved.items with
        | some it => recur it (currentPath ++ "[]") false rows4 visited
        | none => some rows4
      else some rows4

/-- `flattenSchema(schema, rootSpec, currentPath, isRequired, rows,
visitedRefs)`, fuelled.  `none` means the fuel ran out; a `some` result is
exactly the row list the JS function returns.  The visited set is a value,
so each recursive call receives its own copy, as the JS code arranges with
`new Set(visitedRefs)`. -/
def flattenSchema (reg : Registry) :
    Nat → Schema → String → Bool → List FlatRow → List String → Option (List FlatRow)
  | 0, _, _, _, _, _ => none
  | fuel + 1, schema, currentPath, isRequired, rows0, visited0 =>
    flattenBody (flattenSchema reg fuel) reg schema currentPath isRequired rows0 visited0

/-- A scalar node `{type: t}`. -/
def scalarS (t : String) : Schema :=
  .mk none (some t) none none none none none none none none none none none none

/-- An untyped object node `{properties: props}`. -/
def objS (props : List (String × Schema)) : Schema :=
  .mk none none none none none (some props) none none none none none none none none

/-- A typed object node `{type: 'object', required: req, properties: props}`. -/
def objTS (props : List (String × Schema)) (req : List String) : Schema :=
  .mk none (some "object") none none none (some props) (some req) none none none none none none none

/-- A reference node `{$ref: r}`. -/
def refS (r : String) : Schema :=
  .mk (some r) none none none none none none none none none none none none none

/-- An array node `{type: 'array', items: s}`. -/
def arrS (s : Schema) : Schema :=
  .mk none (some "array") none none none none none none (some s) none none none none none

/-- `{allOf: branches}`. -/
def allOfS (branches : List Schema) : Schema :=
  .mk none none none none none none none none none (some branches) none none none none

/-- `{oneOf: branches}`. -/
def oneOfS (branches : List Schema) : Schema :=
  .mk none none none none none none none none none none (some branches) none none none

/-- A node of the tree that `unflattenSchema` builds: a JS object with the
properties that function touches (`type`, `description`, `properties`,
`items`, `additionalProperties`, `$ref`). -/
inductive UTree where
  | mk (type description : Option String)
       (properties : Option (List (String × UTree)))
       (items : Option UTree)
       (additionalProperties : Option UTree)
       (ref : Option String)

def UTree.type : UTree → Option String
  | .mk t _ _ _ _ _ => t

def UTree.description : UTree → Option String
  | .mk _ d _ _ _ _ => d

def UTree.properties : UTree → Option (List (String × UTree))
  | .mk _ _ p _ _ _ => p

def UTree.items : UTree → Option UTree
  | .mk _ _ _ i _ _ => i

def UTree.additionalProperties : UTree → Option UTree
  | .mk _ _ _ _ a _ => a

def UTree.ref : UTree → Option String
  | .mk _ _ _ _ _ r => r

def UTree.setType : UTree → Option String → UTree
  | .mk _ d p i a r, t => .mk t d p i a r

def UTree.setDescription : UTree → Option String → UTree
  | .mk t _ p i a r, d => .mk t d p i a r

def UTree.setProperties : UTree → Option (List (String × UTree)) → UTree
  | .mk t d _ i a r, p => .mk t d p i a r

def UTree.setItems : UTree → Option UTree → UTree
  | .mk t d p _ a r, i => .mk t d p i a r

def UTree.setAddProps : UTree → Option UTree → UTree
  | .mk t d p i _ r, a => .mk t d p i a r

/-- `{ type: 'object', properties: {} }`. -/
def freshObjNode : UTree := .mk (some "object") none (some []) none none none

/-- The node after `Object.keys(current).forEach(k => delete current[k]);
current.$ref = row.ref`. -/
def refNode (r : Option String) : UTree := .mk none none none none none r

/-- The final-segment assignment: `if (!guarded || row.type !== 'array')
current.type = row.type; current.description = row.description; if
(row.type !== 'object' && row.type !== 'array') delete current.properties`.
The root-array and array-item branches guard the type write against
`row.type === 'array'`; the map-key and plain-property branches do not. -/
def leafAssign (u : UTree) (rowType rowDesc : String) (guarded : Bool) : UTree :=
  let u1 := if guarded ∧ rowType = "array" then u else u.setType (some rowType)
  let u2 := u1.setDescription (some rowDesc)
  if rowType ≠ "object" ∧ rowType ≠ "array" then u2.setProperties none else u2

def lookupU : List (String × UTree) → String → Option UTree
  | [], _ => none
  | (k, v) :: rest, n => if k = n then some v else lookupU rest n

/-- In-place update of the entry at an existing key. -/
def upsertU (props : List (String × UTree)) (key : String) (v : UTree) :
    List (String × UTree) :=
  props.map (fun p => if p.1 = key then (p.1, v) else p)

/-- `{ type: 'array', items: { type: 'object', properties: {} } }`. -/
def freshArrayNode : UTree := .mk (some "array") none none (some freshObjNode) none none

/-- The segment walk of `unflattenSchema` for one row: the cursor descends
the dot-split parts, materialising missing containers, and applies the
final-segment assignment.  Returns the updated node and whether a `$ref`
was placed (in which case the caller records the row's path as skipped).
`.error` models the JS `TypeError` thrown when the cursor lands on
`undefined` (an `items` field that was never created) and is then read or
written. -/
def unflattenGo (rowType rowDesc : String) (rowRef : Option String) :
    UTree → List String → Except String (UTree × Bool)
  | cur, [] => .ok (cur, false)
  | cur, part :: rest => do
    let isLast := rest.isEmpty
    let isArrayItem := strEndsWith part "[]"
    let cleanPart := if isArrayItem then strDropRight part 2 else part
    if cleanPart = "" then
      let cur' := if cur.type ≠ some "array" then
          ((cur.setType (some "array")).setItems (some freshObjNode)).setProperties none
        else cur
      (cur'.items).elim (.error "TypeError: Cannot set properties of undefined") (fun it =>
        if isLast then
          if jsTruthy rowRef then
            .ok (cur'.setItems (some (refNode rowRef)), true)
          else
            .ok (cur'.setItems (some (leafAssign it rowType rowDesc true)), false)
        else do
          let (it', flag) ← unflattenGo rowType rowDesc rowRef it rest
          .ok (cur'.setItems (some it'), flag))
    else if cleanPart = "<key>" ∨ cleanPart = "*" then
      let cur' := if cur.additionalProperties.isNone then
          cur.setAddProps (some freshObjNode)
        else cur
      let ap := cur'.additionalProperties.getD freshObjNode
      if isLast then
        if jsTruthy rowRef then
          .ok (cur'.setAddProps (some (refNode rowRef)), true)
        else
          .ok (cur'.setAddProps (some (leafAssign ap rowType rowDesc false)), false)
      else do
        let (ap', flag) ← unflattenGo rowType rowDesc rowRef ap rest
        .ok (cur'.setAddProps (some ap'), flag)
    else
      let props0 := cur.properties.getD []
      if isArrayItem then
        let pc := match lookupU props0 cleanPart with
          | some c => (props0, c)
          | none => (props0 ++ [(cleanPart, freshArrayNode)], freshArrayNode)
        (pc.2.items).elim (.error "TypeError: Cannot set properties of undefined") (fun it =>
          if isLast then
            if jsTruthy rowRef then
              .ok ((cur.setProperties (some (upsertU pc.1 cleanPart
                (pc.2.setItems (some (refNode rowRef)))))), true)
            else
              .ok ((cur.setProperties (some (upsertU pc.1 cleanPart
                (pc.2.setItems (some (leafAssign it rowType rowDesc true)))))), false)
          else do
            let (it', flag) ← unflattenGo rowType rowDesc rowRef it rest
            .ok ((cur.setProperties (some (upsertU pc.1 cleanPart
              (pc.2.setItems (some it'))))), flag))
      else
        let pc := match lookupU props0 cleanPart with
          | some c => (props0, c)
          | none => (props0 ++ [(cleanPart, freshObjNode)], freshObjNode)
        if isLast then
          if jsTruthy rowRef then
            .ok ((cur.setProperties (some (upsertU pc.1 cleanPart (refNode rowRef)))), true)
          else
            .ok ((cur.setProperties (some (upsertU pc.1 cleanPart
              (leafAssign pc.2 rowType rowDesc false)))), false)
        else do
          let (c', flag) ← unflattenGo rowType rowDesc rowRef pc.2 rest
          .ok ((cur.setProperties (some (upsertU pc.1 cleanPart c'))), flag)

/-- One iteration of the `rows.forEach` loop: drop rows with a falsy path,
drop rows below a recorded skipped prefix, otherwise walk the split path;
a row that placed a `$ref` records its path in `skippedPaths`. -/
def processRow (st : UTree × List String) (row : FlatRow) :
    Except String (UTree × List String) :=
  if row.path = "" then .ok st
  else if st.2.any (fun p =>
      strStartsWith row.path (p ++ ".") || strStartsWith row.path (p ++ "[")) then
    .ok st
  else do
    let parts := splitOnChar '.' row.path
    let (tree', flag) ← unflattenGo row.type row.description row.ref st.1 parts
    .ok (tree', if flag then st.2 ++ [row.path] else st.2)

/-- `unflattenSchema(rows)`: fold the rows over the fresh root
`{type: 'object', properties: {}}`.  `.error` is a thrown `TypeError`
escaping the function (the JS code has no handler for it). -/
def unflattenSchema (rows : List FlatRow) : Except String UTree := do
  let st ← rows.foldlM processRow (.mk (some "object") none (some []) none none none, [])
  .ok st.1

/-- `info` object of a spec: the validator only reads `title`. -/
structure SpecInfo where
  title : Option String
deriving DecidableEq, Repr

/-- One operation object: the validator reads `operationId` and
`security.length`. -/
structure SpecOp where
  operationId : Option String
  security : Option (List String)
deriving DecidableEq, Repr

/-- The projection of a parsed spec that `validateSpecFidelity` reads:
`info?.title`, `servers?.length`, `tags?.length`,
`Object.keys(components?.schemas || {})`, and `paths` with its method
objects.  List elements stand for the JS array elements; only lengths and
keys are consumed. -/
structure SpecDoc where
  info : Option SpecInfo
  servers : Option (List String)
  tags : Option (List String)
  componentSchemas : Option (List String)
  paths : Option (List (String × List (String × SpecOp)))
deriving DecidableEq, Repr

/-- `x?.length || 0`. -/
def optLen {α : Type} : Option (List α) → Nat
  | some l => l.length
  | none => 0

/-- `${x}` for a possibly-undefined string. -/
def tmplStr : Option String → String
  | some s => s
  | none => "undefined"

/-- One iteration of the inner method loop of `validateSpecFidelity`:
missing method → deduction; operationId and security mismatches →
reported only. -/
def methodStep (pk1 : String) (rops : List (String × SpecOp))
    (acc2 : Int × List String) (mk0 : String × SpecOp) : Int × List String :=
  match lookupStr rops mk0.1 with
  | none => (acc2.1 + 1, acc2.2 ++ ["Missing Method: " ++ strToUpper mk0.1 ++ " " ++ pk1])
  | some restOp =>
    let acc3 :=
      if jsTruthy mk0.2.operationId = true ∧ mk0.2.operationId ≠ restOp.operationId then
        (acc2.1, acc2.2 ++ ["OpID Mismatch " ++ pk1 ++ " " ++ mk0.1 ++ ": " ++
          tmplStr mk0.2.operationId ++ " vs " ++ tmplStr restOp.operationId])
      else acc2
    if optLen mk0.2.security ≠ optLen restOp.security then
      (acc3.1, acc3.2 ++ ["Security mismatch in " ++ strToUpper mk0.1 ++ " " ++ pk1])
    else acc3

/-- One iteration of the outer path loop of `validateSpecFidelity`. -/
def pathStep (restPaths : List (String × List (String × SpecOp)))
    (acc : Int × List String) (pk : String × List (String × SpecOp)) : Int × List String :=
  match lookupStr restPaths pk.1 with
  | none => (acc.1 + 1, acc.2 ++ ["Missing Path: " ++ pk.1])
  | some rops => pk.2.foldl (methodStep pk.1 rops) acc

/-- The deep path/method comparison loop of `validateSpecFidelity`,
threading `(missingCount, report)`. -/
def pathsDiff (restPaths : List (String × List (String × SpecOp)))
    (acc0 : Int × List String)
    (origPaths : List (String × List (String × SpecOp))) : Int × List String :=
  origPaths.foldl (pathStep restPaths) acc0

/-- The comparison section of `validateSpecFidelity` on the original and
restored specs, returning `{score, report}`.  It can itself throw: the
title-mismatch report line reads `original.info.title` and
`restored.info.title` without optional chaining. -/
def diffSpecs (original restored : SpecDoc) : Except String (Int × List String) := do
  let report1 ←
    if (original.info.bind SpecInfo.title) ≠ (restored.info.bind SpecInfo.title) then
      match original.info with
      | none => .error "Cannot read properties of undefined (reading 'title')"
      | some oi =>
        match restored.info with
        | none => .error "Cannot read properties of undefined (reading 'title')"
        | some ri =>
          .ok (["Title mismatch: \"" ++ tmplStr oi.title ++ "\" vs \"" ++ tmplStr ri.title ++ "\""])
    else .ok ([] : List String)
  let origServers := optLen original.servers
  let restServers := optLen restored.servers
  let a1 : Int × List String :=
    if origServers ≠ restServers then
      (1, report1 ++ ["Missing Servers: Expected " ++ toString origServers ++ ", got " ++
        toString restServers])
    else (0, report1)
  let origTags := optLen original.tags
  let restTags := optLen restored.tags
  let a2 : Int × List String :=
    if origTags ≠ restTags then
      (a1.1 + 1, a1.2 ++ ["Missing Tags: Expected " ++ toString origTags ++ ", got " ++
        toString restTags])
    else a1
  let origComps := (original.componentSchemas.getD []).length
  let restComps := (restored.componentSchemas.getD []).length
  let a3 : Int × List String :=
    if origComps ≠ restComps then
      (a2.1 + ((origComps : Int) - (restComps : Int)),
       a2.2 ++ ["Missing Components: Expected " ++ toString origComps ++ ", got " ++
         toString restComps])
    else a2
  let a4 := pathsDiff (restored.paths.getD []) a3 (original.paths.getD [])
  .ok (max 0 (100 - a4.1 * 5), a4.2)

/-- The body of the validator's `try` block.  The external round-trip
pipeline (text parse, doc projection, doc extraction, JSON parse) is out
of the core's scope; it is abstracted as its outcome: either the pair
(original, restored) or a thrown message. -/
def validateBody (pipeline : Except String (SpecDoc × SpecDoc)) :
    Except String (Int × List String) := do
  let (original, restored) ← pipeline
  diffSpecs original restored

/-- `validateSpecFidelity`: the `try`/`catch` wrapper around the pipeline
and comparison; a caught exception yields score 0 and the single report
line `Validation Failed: <message>`. -/
def validateSpecFidelity (pipeline : Except String (SpecDoc × SpecDoc)) :
    Int × List String :=
  match validateBody pipeline with
  | .ok r => r
  | .error m => (0, ["Validation Failed: " ++ m])

/-- Deductions of the method loop, as the claim words them: one unit per
original method absent from the restored operation object. -/
def missingMethodsCount (rops : List (String × SpecOp)) : List (String × SpecOp) → Int
  | [] => 0
  | m :: ms =>
      (match lookupStr rops m.1 with | none => 1 | some _ => 0) + missingMethodsCount rops ms

/-- Deductions of the path loop, as the claim words them: one unit per
missing path, else one per missing method under that path. -/
def missingPathsCount (restPaths : List (String × List (String × SpecOp))) :
    List (String × List (String × SpecOp)) → Int
  | [] => 0
  | pk :: ps =>
      (match lookupStr restPaths pk.1 with
        | none => 1
        | some rops => missingMethodsCount rops pk.2) + missingPathsCount restPaths ps

/-- Deduction total as the claim words it: one unit per server-length and
tag-length mismatch, the component-count difference, and one unit per
missing path and per missing method; nothing for title, operationId or
security mismatches. -/
def claimedDeductions (original restored : SpecDoc) : Int :=
  (if optLen original.servers ≠ optLen restored.servers then 1 else 0)
  + (if optLen original.tags ≠ optLen restored.tags then 1 else 0)
  + (if (original.componentSchemas.getD []).length ≠ (restored.componentSchemas.getD []).length
     then ((original.componentSchemas.getD []).length : Int)
          - ((restored.componentSchemas.getD []).length : Int)
     else 0)
  + missingPathsCount (restored.paths.getD []) (original.paths.getD [])

/-- The first dot-segment of a path, after stripping a `[]` suffix, is
empty: the condition under which a row's walk converts the node at the
cursor into an array at its first step. -/
def firstSegEmpty (path : String) : Bool :=
  let p := (splitOnChar '.' path).headD ""
  (if strEndsWith p "[]" then strDropRight p 2 else p) = ""

/-- The `type` field of the root of the reconstructed tree, `none` when
the reconstruction throws. -/
def rootTypeOf (rows : List FlatRow) : Option String :=
  match unflattenSchema rows with
  | .ok t => t.type
  | .error _ => none

/-- A spec document with a title and nothing else, the base of the
validator examples. -/
def docBase : SpecDoc := ⟨some ⟨some "T"⟩, none, none, none, none⟩

/-- An original with three paths. -/
def o3 : SpecDoc := {docBase with paths := some [("p1", []), ("p2", []), ("p3", [])]}

/-- A restored spec retaining only the first path. -/
def r1 : SpecDoc := {docBase with paths := some [("p1", [])]}

/-- Two components whose properties reference each other: the registry of
the spec's cycle-termination example, with the names and property keys as
parameters. -/
def regABp (a b p q : String) : Registry :=
  [(a, objS [(p, refS b)]), (b, objS [(q, refS a)])]

/-- The concrete registry of the spec's example, with full JSON-pointer
reference strings. -/
def regAB : Registry :=
  [("A", objS [("p", refS "#/components/schemas/B")]),
   ("B", objS [("q", refS "#/components/schemas/A")])]

/-- The spec's end-to-end example tree:
`{type:"object", required:["id"], properties:{id:{type:"integer"},
tags:{type:"array", items:{type:"string"}}}}`. -/
def exTree : Schema :=
  objTS [("id", scalarS "integer"), ("tags", arrS (scalarS "string"))] ["id"]

/-- The rows the example flattens to, as the claim lists them. -/
def exRows : List FlatRow :=
  [⟨"id", "integer", true, "", none, none, none⟩,
   ⟨"tags", "array", false, "", none, none, none⟩,
   ⟨"tags[]", "string", false, "", none, none, none⟩]

/-- A component whose property `x` is a `oneOf` of two references back to
the component itself. -/
def regDup : Registry := [("A", objS [("x", oneOfS [refS "A", refS "A"])])]

/-- A childless node `{$ref: r, type: t, description: d}` (any field may be
absent). -/
def leafS (r t d : Option String) : Schema :=
  .mk r t d none none none none none none none none none none none

/-- Two self-referential components: each one's property `p`/`q` refers
back to itself, so the two cycles live in disjoint sibling branches of any
object that references both. -/
def regC (n1 n2 : String) : Registry :=
  [(n1, objS [("p", refS n1)]), (n2, objS [("q", refS n2)])]

/-- A registry with a single, acyclic scalar component. -/
def regR (n : String) (t : String) : Registry := [(n, scalarS t)]

/-! ## Helper lemmas -/

@[simp] theorem error_bind {ε α β : Type} (e : ε) (f : α → Except ε β) :
    (Except.error e >>= f) = Except.error e := rfl

@[simp] theorem ok_bind {ε α β : Type} (a : α) (f : α → Except ε β) :
    (Except.ok a >>= f) = f a := rfl

/-- When the resolved node's `_resolvedFrom` is already in the visited set,
one invocation emits exactly the recursive-marker row and stops. -/
theorem flatten_cycle (reg : Registry) (fuel : Nat) (schema : Schema) (cp : String)
    (req : Bool) (rows : List FlatRow) (v : List String) (n : String)
    (hres : (resolveSchema schema reg).resolvedFrom = some n) (hv : n ∈ v) :
    flattenSchema reg (fuel + 1) schema cp req rows v =
      some (rows ++ [⟨cp, "Recursive (" ++ n ++ ")", req, "Recursive reference detected",
        none, none, schema.ref⟩]) := by
  simp [flattenSchema, flattenBody, hres, hv]

set_option maxHeartbeats 2000000 in
/-- Flattening the second component of the mutual cycle emits its object
row and then the recursive marker for the first component. -/
theorem C3_lvl2 (a b p q : String) (fuel : Nat) (ha : a ≠ "") (hb : b ≠ "") (hab : a ≠ b)
    (hp : p ≠ "") (hsa : splitOnChar '/' a = [a]) (hsb : splitOnChar '/' b = [b])
    (rows : List FlatRow)
    (hdedup : ¬ ∃ x ∈ rows, x.path = p ∧ x.type = "object" ∧ x.description = "") :
    flattenSchema (regABp a b p q) (fuel + 2) (refS b) p false rows [a] =
      some (rows ++ [⟨p, "object", false, "", none, none, some b⟩,
        ⟨p ++ "." ++ q, "Recursive (" ++ a ++ ")", false, "Recursive reference detected",
          none, none, some a⟩]) := by
  have hcyc := fun (rows' : List FlatRow) =>
    flatten_cycle (regABp a b p q) fuel (refS a) (p ++ "." ++ q) false rows' [a, b] a
      (by simp [resolveSchema, refS, regABp, Schema.ref, lookupStr, ha, hsa,
        Schema.annotateResolved, objS, Schema.resolvedFrom])
      (by simp)
  simp only [show fuel + 2 = (fuel + 1) + 1 from rfl, flattenSchema]
  simp [flattenBody, resolveSchema, regABp, refS, objS, Schema.ref, Schema.resolvedFrom,
    Schema.allOf, Schema.oneOf, Schema.anyOf, Schema.properties, Schema.required,
    Schema.additionalProperties, Schema.items, Schema.type, Schema.description, Schema.enum,
    Schema.exampleVal, Schema.annotateResolved, lookupStr, jsType, jsTruthy, strOrEmpty,
    ha, hb, hab, Ne.symm hab, hp, Ne.symm hp, hsa, hsb, hcyc, hdedup]

/-! ## Claim C3 -/

/-- C3 counterexample: on the spec's own two-component cycle the emitted
marker is `Recursive (A)` — with a space before the parenthesis — not the
claimed `Recursive(A)`. -/
theorem C3_recursive_marker_counterexample :
    flattenSchema regAB 10 (refS "#/components/schemas/A") "" false [] [] =
      some [⟨"", "object", false, "", none, none, some "#/components/schemas/A"⟩,
            ⟨"p", "object", false, "", none, none, some "#/components/schemas/B"⟩,
            ⟨"p.q", "Recursive (A)", false, "Recursive reference detected", none, none,
              some "#/components/schemas/A"⟩]
    ∧ "Recursive (A)" ≠ "Recursive(A)" := by
  exact ⟨rfl, by decide⟩

set_option maxHeartbeats 2000000 in
/-- C3 amended: for every direct two-component mutual property-reference
cycle, flattening the first reference terminates (any fuel of at least 3
suffices) and emits exactly one recursive row at the re-entry point — its
type is `"Recursive (" + name + ")"` (with a space) and its description is
`"Recursive reference detected"` — with no rows below it. -/
theorem C3_direct_cycle_terminates_with_spaced_marker (a b p q : String) (fuel : Nat)
    (ha : a ≠ "") (hb : b ≠ "") (hab : a ≠ b) (hp : p ≠ "")
    (hsa : splitOnChar '/' a = [a]) (hsb : splitOnChar '/' b = [b]) :
    flattenSchema (regABp a b p q) (fuel + 3) (refS a) "" false [] [] =
      some [⟨"", "object", false, "", none, none, some a⟩,
            ⟨p, "object", false, "", none, none, some b⟩,
            ⟨p ++ "." ++ q, "Recursive (" ++ a ++ ")", false, "Recursive reference detected",
              none, none, some a⟩] := by
  have hl2 := C3_lvl2 a b p q fuel ha hb hab hp hsa hsb
    [⟨"", "object", false, "", none, none, some a⟩]
    (by simp [Ne.symm hp])
  simp only [show fuel + 3 = (fuel + 2) + 1 from rfl, flattenSchema]
  simp [flattenBody, resolveSchema, regABp, refS, objS, Schema.ref, Schema.resolvedFrom,
    Schema.allOf, Schema.oneOf, Schema.anyOf, Schema.properties, Schema.required,
    Schema.additionalProperties, Schema.items, Schema.type, Schema.description, Schema.enum,
    Schema.exampleVal, Schema.annotateResolved, lookupStr, jsType, jsTruthy, strOrEmpty,
    ha, hb, hab, Ne.symm hab, hp, Ne.symm hp, hsa, hsb, hl2]

/-- Witness for C3: the amended theorem applied at the concrete names of
the spec's example. -/
theorem C3_direct_cycle_witness :
    flattenSchema (regABp "A" "B" "p" "q") (1 + 3) (refS "A") "" false [] [] =
      some [⟨"", "object", false, "", none, none, some "A"⟩,
            ⟨"p", "object", false, "", none, none, some "B"⟩,
            ⟨"p" ++ "." ++ "q", "Recursive (" ++ "A" ++ ")", false,
              "Recursive reference detected", none, none, some "A"⟩] :=
  C3_direct_cycle_terminates_with_spaced_marker "A" "B" "p" "q" 1
    (by decide) (by decide) (by decide) (by decide) (by decide) (by decide)

/-! ## Claim C6 -/

set_option maxHeartbeats 1000000 in
/-- C6: `allOf` merges branch properties in array order with
last-write-wins; two branches declaring the same property `x` yield a
single row for `x` carrying the second branch's type.  The second conjunct
is the spec's concrete string/integer instance. -/
theorem C6_allOf_last_write_wins :
    (∀ x t1 t2 : String, x ≠ "" → t2 ≠ "" →
      flattenSchema [] 2 (allOfS [objS [(x, scalarS t1)], objS [(x, scalarS t2)]])
          "" false [] [] =
        some [⟨x, t2, false, "", none, none, none⟩])
    ∧ flattenSchema [] 10
        (allOfS [objS [("x", scalarS "string")], objS [("x", scalarS "integer")]])
          "" false [] [] =
        some [⟨"x", "integer", false, "", none, none, none⟩] := by
  refine ⟨fun x t1 t2 hx ht2 => ?_, rfl⟩
  simp [flattenSchema, flattenBody, resolveSchema, allOfS, objS, scalarS, Schema.ref,
    Schema.resolvedFrom, Schema.allOf, Schema.oneOf, Schema.anyOf, Schema.properties,
    Schema.required, Schema.additionalProperties, Schema.items, Schema.type,
    Schema.description, Schema.enum, Schema.exampleVal, Schema.applyAllOfMerge, allOfMerge,
    jsAssign, assignOne, apTruthy, jsType, jsTruthy, strOrEmpty, hx, ht2]

/-- Witness for C6: the universal part applied at the spec's example. -/
theorem C6_allOf_last_write_wins_witness :
    flattenSchema [] 2 (allOfS [objS [("x", scalarS "string")], objS [("x", scalarS "integer")]])
        "" false [] [] =
      some [⟨"x", "integer", false, "", none, none, none⟩] :=
  C6_allOf_last_write_wins.1 "x" "string" "integer" (by decide) (by decide)

/-! ## Claim C1 -/

/-- C1: flattening the example yields exactly the three claimed rows, but
unflattening those very rows does not reproduce the tree — the call throws
(the `tags` row creates a node without `items`, and the `tags[]` row then
dereferences that missing field), so the round trip fails. -/
theorem C1_roundtrip_crashes_on_spec_example :
    flattenSchema [] 10 exTree "" false [] [] = some exRows
    ∧ (unflattenSchema exRows).isOk = false
    ∧ unflattenSchema exRows = .error "TypeError: Cannot set properties of undefined" :=
  ⟨rfl, rfl, rfl⟩

/-! ## Claim C4 -/

/-- C4: `unflattenSchema` is not total.  A two-row input — an array row
followed by its `[]` item row, exactly the shape `flattenSchema` emits for
every array-typed property — makes it throw instead of returning a
best-effort tree. -/
theorem C4_unflatten_throws_on_array_rows :
    unflattenSchema [⟨"a", "array", false, "", none, none, none⟩,
        ⟨"a[]", "string", false, "", none, none, none⟩] =
      .error "TypeError: Cannot set properties of undefined"
    ∧ (unflattenSchema [⟨"a", "array", false, "", none, none, none⟩,
        ⟨"a[]", "string", false, "", none, none, none⟩]).isOk = false :=
  ⟨rfl, rfl⟩

/-! ## Claim C5 -/

/-- C5 counterexample: the two `oneOf` branches re-entering the same cycle
emit two rows identical in `(path, type, description)` (and in every other
field), and both survive — recursive-marker rows are appended without the
duplicate check, so the output is not deduplicated. -/
theorem C5_duplicate_recursive_rows_counterexample :
    flattenSchema regDup 10 (refS "A") "" false [] [] =
      some [⟨"", "object", false, "", none, none, some "A"⟩,
            ⟨"x", "Recursive (A)", false, "Recursive reference detected", none, none, some "A"⟩,
            ⟨"x", "Recursive (A)", false, "Recursive reference detected", none, none, some "A"⟩,
            ⟨"x", "string", false, "", none, none, none⟩]
    ∧ ¬ ([⟨"", "object", false, "", none, none, some "A"⟩,
          ⟨"x", "Recursive (A)", false, "Recursive reference detected", none, none, some "A"⟩,
          ⟨"x", "Recursive (A)", false, "Recursive reference detected", none, none, some "A"⟩,
          ⟨"x", "string", false, "", none, none, none⟩] : List FlatRow).Pairwise
        (fun r s => ¬(r.path = s.path ∧ r.type = s.type ∧ r.description = s.description)) := by
  exact ⟨rfl, by decide⟩

/-- C5 amended: `oneOf`/`anyOf` branches are flattened into the shared
output with the same path and required flag, and ordinary rows are
deduplicated on `(path, type, description)` (recursive-marker and map-any
rows bypass the check): identical branches yield one row for `id`, while
branches differing in type yield two. -/
theorem C5_oneOf_descent_and_dedup :
    flattenSchema [] 10
        (oneOfS [objS [("id", scalarS "string")], objS [("id", scalarS "string")]])
        "" false [] [] =
      some [⟨"id", "string", false, "", none, none, none⟩]
    ∧ flattenSchema [] 10
        (oneOfS [objS [("id", scalarS "string")], objS [("id", scalarS "integer")]])
        "" false [] [] =
      some [⟨"id", "string", false, "", none, none, none⟩,
            ⟨"id", "integer", false, "", none, none, none⟩] :=
  ⟨rfl, rfl⟩

/-! ## Claim C8 -/

/-- C8: `validateSpecFidelity` never propagates a failure: whenever any
stage of the pipeline (or the comparison itself) throws, the result is
score 0 with the single report line `Validation Failed: <message>`;
otherwise the result is the comparison's own score and report. -/
theorem C8_validator_catches_all_failures
    (pipeline : Except String (SpecDoc × SpecDoc)) :
    (∃ m, validateBody pipeline = .error m
      ∧ validateSpecFidelity pipeline = (0, ["Validation Failed: " ++ m])
      ∧ (["Validation Failed: " ++ m] : List String).length = 1)
    ∨ (∃ res, validateBody pipeline = .ok res ∧ validateSpecFidelity pipeline = res) := by
  cases h : validateBody pipeline with
  | error m => exact Or.inl ⟨m, rfl, by simp [validateSpecFidelity, h], rfl⟩
  | ok res => exact Or.inr ⟨res, rfl, by simp [validateSpecFidelity, h]⟩

/-! ## Claim C7 -/

/-- C7 counterexample: a scalar at the root with no incoming reference
emits no row at all, although the claim says a row is always emitted for
scalars. -/
theorem C7_root_scalar_emits_no_row :
    flattenSchema [] 10 (scalarS "integer") "" false [] [] = some ([] : List FlatRow)
    ∧ flattenSchema [] 10 (scalarS "integer") "" false [] [] ≠
        some [⟨"", "integer", false, "", none, none, none⟩] := by
  exact ⟨rfl, by decide⟩

set_option maxHeartbeats 1000000 in
/-- C7 amended: a leaf node's row is emitted exactly when the node sits at
a non-empty path, or carries a truthy `$ref`, or is an array — and, on top
of that, a root object without a reference is skipped; so root scalars
without a reference are skipped too.  The emitted type is the node's own
non-empty type, defaulting to `"object"` when `properties` is present
(second conjunct) and `"string"` otherwise. -/
theorem C7_row_emission_rule :
    (∀ (fuel : Nat) (path : String) (req : Bool) (visited : List String) (r t d : Option String),
      flattenSchema [] (fuel + 1) (leafS r t d) path req [] visited =
        some (if (path ≠ "" ∨ jsTruthy r = true ∨ jsType (leafS r t d) = "array")
                ∧ (path ≠ "" ∨ jsType (leafS r t d) ≠ "object" ∨ jsTruthy r = true)
              then [⟨path, jsType (leafS r t d), req, strOrEmpty d, none, none, r⟩] else []))
    ∧ (∀ (fuel : Nat) (path : String) (req : Bool) (visited : List String),
      flattenSchema [] (fuel + 1) (objS []) path req [] visited =
        some (if path ≠ "" then [⟨path, "object", req, "", none, none, none⟩] else [])) := by
  constructor
  · intro fuel path req visited r t d
    simp only [flattenSchema]
    rcases r with _ | rv
    · simp [flattenBody, resolveSchema, leafS, Schema.ref, Schema.resolvedFrom, Schema.allOf,
        Schema.oneOf, Schema.anyOf, Schema.properties, Schema.required,
        Schema.additionalProperties, Schema.items, Schema.type, Schema.description,
        Schema.enum, Schema.exampleVal, jsType, jsTruthy, strOrEmpty, lookupStr]
      split_ifs <;> simp_all
    · by_cases hrv : rv = ""
      · subst hrv
        simp [flattenBody, resolveSchema, leafS, Schema.ref, Schema.resolvedFrom, Schema.allOf,
          Schema.oneOf, Schema.anyOf, Schema.properties, Schema.required,
          Schema.additionalProperties, Schema.items, Schema.type, Schema.description,
          Schema.enum, Schema.exampleVal, jsType, jsTruthy, strOrEmpty, lookupStr]
        split_ifs <;> simp_all
      · simp [flattenBody, resolveSchema, leafS, Schema.ref, Schema.resolvedFrom, Schema.allOf,
          Schema.oneOf, Schema.anyOf, Schema.properties, Schema.required,
          Schema.additionalProperties, Schema.items, Schema.type, Schema.description,
          Schema.enum, Schema.exampleVal, jsType, jsTruthy, strOrEmpty, lookupStr, hrv]
  · intro fuel path req visited
    simp [flattenSchema, flattenBody, resolveSchema, objS, Schema.ref, Schema.resolvedFrom,
      Schema.allOf, Schema.oneOf, Schema.anyOf, Schema.properties, Schema.required,
      Schema.additionalProperties, Schema.items, Schema.type, Schema.description,
      Schema.enum, Schema.exampleVal, jsType, jsTruthy, strOrEmpty, lookupStr]

/-! ## Claim C9 -/

set_option maxHeartbeats 2000000 in
/-- Flattening a reference to the first self-cycling component emits its
object row and the recursive marker for its self-reference. -/
theorem C9_cycle_child (n1 n2 : String) (fuel : Nat) (h1 : n1 ≠ "")
    (hs1 : splitOnChar '/' n1 = [n1])
    (cp : String) (hcp : cp ≠ "") (rows : List FlatRow)
    (hdedup : ¬ ∃ x ∈ rows, x.path = cp ∧ x.type = "object" ∧ x.description = "") :
    flattenSchema (regC n1 n2) (fuel + 2) (refS n1) cp false rows [] =
      some (rows ++ [⟨cp, "object", false, "", none, none, some n1⟩,
        ⟨cp ++ "." ++ "p", "Recursive (" ++ n1 ++ ")", false, "Recursive reference detected",
          none, none, some n1⟩]) := by
  have hcyc := fun (rows' : List FlatRow) =>
    flatten_cycle (regC n1 n2) fuel (refS n1) (cp ++ "." ++ "p") false rows' [n1] n1
      (by simp [resolveSchema, refS, regC, Schema.ref, lookupStr, h1, hs1,
        Schema.annotateResolved, objS, Schema.resolvedFrom])
      (by simp)
  simp only [show fuel + 2 = (fuel + 1) + 1 from rfl, flattenSchema]
  simp [flattenBody, resolveSchema, regC, refS, objS, Schema.ref, Schema.resolvedFrom,
    Schema.allOf, Schema.oneOf, Schema.anyOf, Schema.properties, Schema.required,
    Schema.additionalProperties, Schema.items, Schema.type, Schema.description, Schema.enum,
    Schema.exampleVal, Schema.annotateResolved, lookupStr, jsType, jsTruthy, strOrEmpty,
    h1, hcp, Ne.symm hcp, hs1, hcyc, hdedup]

set_option maxHeartbeats 2000000 in
/-- Flattening a reference to the second self-cycling component likewise
emits its object row and its own recursive marker. -/
theorem C9_cycle_child2 (n1 n2 : String) (fuel : Nat) (h2 : n2 ≠ "")
    (hab : n1 ≠ n2) (hs2 : splitOnChar '/' n2 = [n2])
    (cp : String) (hcp : cp ≠ "") (rows : List FlatRow)
    (hdedup : ¬ ∃ x ∈ rows, x.path = cp ∧ x.type = "object" ∧ x.description = "") :
    flattenSchema (regC n1 n2) (fuel + 2) (refS n2) cp false rows [] =
      some (rows ++ [⟨cp, "object", false, "", none, none, some n2⟩,
        ⟨cp ++ "." ++ "q", "Recursive (" ++ n2 ++ ")", false, "Recursive reference detected",
          none, none, some n2⟩]) := by
  have hcyc := fun (rows' : List FlatRow) =>
    flatten_cycle (regC n1 n2) fuel (refS n2) (cp ++ "." ++ "q") false rows' [n2] n2
      (by simp [resolveSchema, refS, regC, Schema.ref, lookupStr, h2, hab, Ne.symm hab, hs2,
        Schema.annotateResolved, objS, Schema.resolvedFrom])
      (by simp)
  simp only [show fuel + 2 = (fuel + 1) + 1 from rfl, flattenSchema]
  simp [flattenBody, resolveSchema, regC, refS, objS, Schema.ref, Schema.resolvedFrom,
    Schema.allOf, Schema.oneOf, Schema.anyOf, Schema.properties, Schema.required,
    Schema.additionalProperties, Schema.items, Schema.type, Schema.description, Schema.enum,
    Schema.exampleVal, Schema.annotateResolved, lookupStr, jsType, jsTruthy, strOrEmpty,
    h2, hab, Ne.symm hab, hcp, Ne.symm hcp, hs2, hcyc, hdedup]

set_option maxHeartbeats 2000000 in
/-- An object with two properties referencing the two self-cycling
components: each sibling branch detects its own cycle, independently. -/
theorem C9_disjoint_cycles (n1 n2 : String) (fuel : Nat) (h1 : n1 ≠ "") (h2 : n2 ≠ "")
    (hab : n1 ≠ n2) (hs1 : splitOnChar '/' n1 = [n1]) (hs2 : splitOnChar '/' n2 = [n2]) :
    flattenSchema (regC n1 n2) (fuel + 3) (objS [("a", refS n1), ("b", refS n2)])
        "" false [] [] =
      some [⟨"a", "object", false, "", none, none, some n1⟩,
            ⟨"a.p", "Recursive (" ++ n1 ++ ")", false, "Recursive reference detected",
              none, none, some n1⟩,
            ⟨"b", "object", false, "", none, none, some n2⟩,
            ⟨"b.q", "Recursive (" ++ n2 ++ ")", false, "Recursive reference detected",
              none, none, some n2⟩] := by
  have hc1 := C9_cycle_child n1 n2 fuel h1 hs1 "a" (by decide) [] (by simp)
  have hc2 := C9_cycle_child2 n1 n2 fuel h2 hab hs2 "b" (by decide)
    [⟨"a", "object", false, "", none, none, some n1⟩,
     ⟨"a" ++ "." ++ "p", "Recursive (" ++ n1 ++ ")", false, "Recursive reference detected",
       none, none, some n1⟩]
    (by simp)
  simp only [show fuel + 3 = (fuel + 2) + 1 from rfl, flattenSchema]
  simp [flattenBody, resolveSchema, regC, refS, objS, Schema.ref, Schema.resolvedFrom,
    Schema.allOf, Schema.oneOf, Schema.anyOf, Schema.properties, Schema.required,
    Schema.additionalProperties, Schema.items, Schema.type, Schema.description, Schema.enum,
    Schema.exampleVal, Schema.annotateResolved, lookupStr, jsType, jsTruthy, strOrEmpty,
    h1, h2, hab, Ne.symm hab, hs1, hs2, hc1, hc2]

set_option maxHeartbeats 2000000 in
/-- Flattening a reference to the acyclic component expands it fully into
one scalar row. -/
theorem C9_reuse_child (n t : String) (fuel : Nat) (hn : n ≠ "") (ht : t ≠ "")
    (hs : splitOnChar '/' n = [n]) (cp : String) (hcp : cp ≠ "") (rows : List FlatRow)
    (hdedup : ¬ ∃ x ∈ rows, x.path = cp ∧ x.type = t ∧ x.description = "") :
    flattenSchema (regR n t) (fuel + 1) (refS n) cp false rows [] =
      some (rows ++ [⟨cp, t, false, "", none, none, some n⟩]) := by
  simp only [flattenSchema]
  simp [flattenBody, resolveSchema, regR, refS, scalarS, Schema.ref, Schema.resolvedFrom,
    Schema.allOf, Schema.oneOf, Schema.anyOf, Schema.properties, Schema.required,
    Schema.additionalProperties, Schema.items, Schema.type, Schema.description, Schema.enum,
    Schema.exampleVal, Schema.annotateResolved, lookupStr, jsType, jsTruthy, strOrEmpty,
    hn, ht, hcp, hs, hdedup]

set_option maxHeartbeats 2000000 in
/-- An object whose two sibling properties both reference the same acyclic
component: both branches expand it in full, and no recursive marker is
emitted. -/
theorem C9_sibling_reuse (n t : String) (fuel : Nat) (hn : n ≠ "") (ht : t ≠ "")
    (hs : splitOnChar '/' n = [n]) :
    flattenSchema (regR n t) (fuel + 2) (objS [("a", refS n), ("b", refS n)]) "" false [] [] =
      some [⟨"a", t, false, "", none, none, some n⟩,
            ⟨"b", t, false, "", none, none, some n⟩] := by
  have hc1 := C9_reuse_child n t fuel hn ht hs "a" (by decide) [] (by simp)
  have hc2 := C9_reuse_child n t fuel hn ht hs "b" (by decide)
    [⟨"a", t, false, "", none, none, some n⟩] (by simp)
  simp only [show fuel + 2 = (fuel + 1) + 1 from rfl, flattenSchema]
  simp only [flattenBody]
  simp only [objS, refS, scalarS, regR]
  simp [resolveSchema, Schema.ref, Schema.resolvedFrom,
    Schema.allOf, Schema.oneOf, Schema.anyOf, Schema.properties, Schema.required,
    Schema.additionalProperties, Schema.items, Schema.type, Schema.description, Schema.enum,
    Schema.exampleVal, Schema.annotateResolved, lookupStr, jsType, jsTruthy, strOrEmpty,
    hn, ht, hs, hc1, hc2]

/-- C9: the visited set is branch-scoped.  First conjunct: reference
cycles sitting in two disjoint sibling properties are each detected
independently (each branch gets exactly its own recursive marker).  Second
conjunct: a reference reused in a sibling branch after being fully
expanded in another is expanded again, never flagged as a cycle. -/
theorem C9_visited_set_branch_scoped :
    (∀ (n1 n2 : String) (fuel : Nat), n1 ≠ "" → n2 ≠ "" → n1 ≠ n2 →
      splitOnChar '/' n1 = [n1] → splitOnChar '/' n2 = [n2] →
      flattenSchema (regC n1 n2) (fuel + 3) (objS [("a", refS n1), ("b", refS n2)])
          "" false [] [] =
        some [⟨"a", "object", false, "", none, none, some n1⟩,
              ⟨"a.p", "Recursive (" ++ n1 ++ ")", false, "Recursive reference detected",
                none, none, some n1⟩,
              ⟨"b", "object", false, "", none, none, some n2⟩,
              ⟨"b.q", "Recursive (" ++ n2 ++ ")", false, "Recursive reference detected",
                none, none, some n2⟩])
    ∧ (∀ (n t : String) (fuel : Nat), n ≠ "" → t ≠ "" → splitOnChar '/' n = [n] →
      flattenSchema (regR n t) (fuel + 2) (objS [("a", refS n), ("b", refS n)])
          "" false [] [] =
        some [⟨"a", t, false, "", none, none, some n⟩,
              ⟨"b", t, false, "", none, none, some n⟩]) :=
  ⟨fun n1 n2 fuel h1 h2 hab hs1 hs2 => C9_disjoint_cycles n1 n2 fuel h1 h2 hab hs1 hs2,
   fun n t fuel hn ht hs => C9_sibling_reuse n t fuel hn ht hs⟩

/-- Witness for C9: both parts applied at concrete component names. -/
theorem C9_visited_set_branch_scoped_witness :
    flattenSchema (regC "A" "B") (1 + 3) (objS [("a", refS "A"), ("b", refS "B")])
        "" false [] [] =
      some [⟨"a", "object", false, "", none, none, some "A"⟩,
            ⟨"a.p", "Recursive (" ++ "A" ++ ")", false, "Recursive reference detected",
              none, none, some "A"⟩,
            ⟨"b", "object", false, "", none, none, some "B"⟩,
            ⟨"b.q", "Recursive (" ++ "B" ++ ")", false, "Recursive reference detected",
              none, none, some "B"⟩]
    ∧ flattenSchema (regR "D" "string") (1 + 2) (objS [("a", refS "D"), ("b", refS "D")])
        "" false [] [] =
      some [⟨"a", "string", false, "", none, none, some "D"⟩,
            ⟨"b", "string", false, "", none, none, some "D"⟩] :=
  ⟨C9_visited_set_branch_scoped.1 "A" "B" 1 (by decide) (by decide) (by decide)
      (by decide) (by decide),
   C9_visited_set_branch_scoped.2 "D" "string" 1 (by decide) (by decide) (by decide)⟩

/-! ## Claim C10 -/

@[simp] theorem setType_type (u : UTree) (t : Option String) :
    (u.setType t).type = t := by cases u; rfl

@[simp] theorem setType_description (u : UTree) (t : Option String) :
    (u.setType t).description = u.description := by cases u; rfl

@[simp] theorem setType_properties (u : UTree) (t : Option String) :
    (u.setType t).properties = u.properties := by cases u; rfl

@[simp] theorem setType_items (u : UTree) (t : Option String) :
    (u.setType t).items = u.items := by cases u; rfl

@[simp] theorem setType_addProps (u : UTree) (t : Option String) :
    (u.setType t).additionalProperties = u.additionalProperties := by cases u; rfl

@[simp] theorem setType_ref (u : UTree) (t : Option String) :
    (u.setType t).ref = u.ref := by cases u; rfl

@[simp] theorem setDescription_type (u : UTree) (d : Option String) :
    (u.setDescription d).type = u.type := by cases u; rfl

@[simp] theorem setDescription_description (u : UTree) (d : Option String) :
    (u.setDescription d).description = d := by cases u; rfl

@[simp] theorem setDescription_properties (u : UTree) (d : Option String) :
    (u.setDescription d).properties = u.properties := by cases u; rfl

@[simp] theorem setDescription_items (u : UTree) (d : Option String) :
    (u.setDescription d).items = u.items := by cases u; rfl

@[simp] theorem setDescription_addProps (u : UTree) (d : Option String) :
    (u.setDescription d).additionalProperties = u.additionalProperties := by cases u; rfl

@[simp] theorem setDescription_ref (u : UTree) (d : Option String) :
    (u.setDescription d).ref = u.ref := by cases u; rfl

@[simp] theorem setProperties_type (u : UTree) (p : Option (List (String × UTree))) :
    (u.setProperties p).type = u.type := by cases u; rfl

@[simp] theorem setProperties_description (u : UTree) (p : Option (List (String × UTree))) :
    (u.setProperties p).description = u.description := by cases u; rfl

@[simp] theorem setProperties_properties (u : UTree) (p : Option (List (String × UTree))) :
    (u.setProperties p).properties = p := by cases u; rfl

@[simp] theorem setProperties_items (u : UTree) (p : Option (List (String × UTree))) :
    (u.setProperties p).items = u.items := by cases u; rfl

@[simp] theorem setProperties_addProps (u : UTree) (p : Option (List (String × UTree))) :
    (u.setProperties p).additionalProperties = u.additionalProperties := by cases u; rfl

@[simp] theorem setProperties_ref (u : UTree) (p : Option (List (String × UTree))) :
    (u.setProperties p).ref = u.ref := by cases u; rfl

@[simp] theorem setItems_type (u : UTree) (i : Option UTree) :
    (u.setItems i).type = u.type := by cases u; rfl

@[simp] theorem setItems_description (u : UTree) (i : Option UTree) :
    (u.setItems i).description = u.description := by cases u; rfl

@[simp] theorem setItems_properties (u : UTree) (i : Option UTree) :
    (u.setItems i).properties = u.properties := by cases u; rfl

@[simp] theorem setItems_items (u : UTree) (i : Option UTree) :
    (u.setItems i).items = i := by cases u; rfl

@[simp] theorem setItems_addProps (u : UTree) (i : Option UTree) :
    (u.setItems i).additionalProperties = u.additionalProperties := by cases u; rfl

@[simp] theorem setItems_ref (u : UTree) (i : Option UTree) :
    (u.setItems i).ref = u.ref := by cases u; rfl

@[simp] theorem setAddProps_type (u : UTree) (a : Option UTree) :
    (u.setAddProps a).type = u.type := by cases u; rfl

@[simp] theorem setAddProps_description (u : UTree) (a : Option UTree) :
    (u.setAddProps a).description = u.description := by cases u; rfl

@[simp] theorem setAddProps_properties (u : UTree) (a : Option UTree) :
    (u.setAddProps a).properties = u.properties := by cases u; rfl

@[simp] theorem setAddProps_items (u : UTree) (a : Option UTree) :
    (u.setAddProps a).items = u.items := by cases u; rfl

@[simp] theorem setAddProps_addProps (u : UTree) (a : Option UTree) :
    (u.setAddProps a).additionalProperties = a := by cases u; rfl

@[simp] theorem setAddProps_ref (u : UTree) (a : Option UTree) :
    (u.setAddProps a).ref = u.ref := by cases u; rfl

theorem unflattenGo_top (rt rd : String) (rr : Option String) (cur : UTree)
    (parts : List String) (cur' : UTree) (flag : Bool)
    (h : unflattenGo rt rd rr cur parts = .ok (cur', flag)) :
    cur'.ref = cur.ref ∧ cur'.description = cur.description ∧
      (cur'.type = cur.type ∨ (cur'.type = some "array" ∧
        (let p := parts.headD "";
          (if strEndsWith p "[]" then strDropRight p 2 else p) = ""))) := by
  cases parts with
  | nil =>
    simp only [unflattenGo] at h
    cases h
    simp
  | cons part rest =>
    simp only [unflattenGo] at h
    by_cases hclean : (if strEndsWith part "[]" = true then strDropRight part 2 else part) = ""
    · simp only [hclean, if_true, ite_true] at h
      by_cases harr : cur.type = some "array"
      · simp only [harr, ne_eq, not_true_eq_false, if_false, ite_false] at h
        rcases hi : cur.items with _ | it <;> rw [hi] at h <;>
          simp only [Option.elim_none, Option.elim_some] at h
        · cases h
        · split at h
          · split at h
            · cases h; exact ⟨by simp, by simp, Or.inr ⟨by simp [harr], by simpa using hclean⟩⟩
            · cases h; exact ⟨by simp, by simp, Or.inr ⟨by simp [harr], by simpa using hclean⟩⟩
          · cases hrec : unflattenGo rt rd rr it rest with
            | error e => rw [hrec] at h; simp at h
            | ok pr =>
              rw [hrec] at h
              simp only [ok_bind] at h
              cases h
              exact ⟨by simp, by simp, Or.inr ⟨by simp [harr], by simpa using hclean⟩⟩
      · simp only [harr, ne_eq, not_false_eq_true, if_true, ite_true,
          setProperties_items, setItems_items, Option.elim_some] at h
        split at h
        · split at h
          · cases h; exact ⟨by simp, by simp, Or.inr ⟨by simp, by simpa using hclean⟩⟩
          · cases h; exact ⟨by simp, by simp, Or.inr ⟨by simp, by simpa using hclean⟩⟩
        · cases hrec : unflattenGo rt rd rr freshObjNode rest with
          | error e => rw [hrec] at h; simp at h
          | ok pr =>
            rw [hrec] at h
            simp only [ok_bind] at h
            cases h
            exact ⟨by simp, by simp, Or.inr ⟨by simp, by simpa using hclean⟩⟩
    · simp only [hclean, if_false, ite_false] at h
      by_cases hkey : ((if strEndsWith part "[]" = true then strDropRight part 2 else part) = "<key>"
          ∨ (if strEndsWith part "[]" = true then strDropRight part 2 else part) = "*")
      · simp only [hkey, if_true, ite_true] at h
        by_cases hap : cur.additionalProperties.isNone
        · rw [if_pos hap] at h
          simp only [setAddProps_addProps, Option.getD_some] at h
          split at h
          · split at h
            · cases h; exact ⟨by simp, by simp, Or.inl (by simp)⟩
            · cases h; exact ⟨by simp, by simp, Or.inl (by simp)⟩
          · cases hrec : unflattenGo rt rd rr freshObjNode rest with
            | error e => rw [hrec] at h; simp at h
            | ok pr =>
              rw [hrec] at h
              simp only [ok_bind] at h
              cases h
              exact ⟨by simp, by simp, Or.inl (by simp)⟩
        · rw [if_neg hap] at h
          split at h
          · split at h
            · cases h; exact ⟨by simp, by simp, Or.inl (by simp)⟩
            · cases h; exact ⟨by simp, by simp, Or.inl (by simp)⟩
          · cases hrec : unflattenGo rt rd rr (cur.additionalProperties.getD freshObjNode) rest with
            | error e => rw [hrec] at h; simp at h
            | ok pr =>
              rw [hrec] at h
              simp only [ok_bind] at h
              cases h
              exact ⟨by simp, by simp, Or.inl (by simp)⟩
      · simp only [hkey, if_false, ite_false] at h
        split at h
        · -- isArrayItem = true
          split at h
          · -- lookup found
            rename_i c hc
            rcases hci : c.items with _ | it <;> rw [hci] at h <;>
              simp only [Option.elim_none, Option.elim_some] at h
            · cases h
            · split at h
              · split at h
                · cases h; exact ⟨by simp, by simp, Or.inl (by simp)⟩
                · cases h; exact ⟨by simp, by simp, Or.inl (by simp)⟩
              · cases hrec : unflattenGo rt rd rr it rest with
                | error e => rw [hrec] at h; simp at h
                | ok pr =>
                  rw [hrec] at h
                  simp only [ok_bind] at h
                  cases h
                  exact ⟨by simp, by simp, Or.inl (by simp)⟩
          · -- lookup missing: fresh array node, items = some freshObjNode
            simp only [freshArrayNode, UTree.items, Option.elim_some] at h
            split at h
            · split at h
              · cases h; exact ⟨by simp, by simp, Or.inl (by simp)⟩
              · cases h; exact ⟨by simp, by simp, Or.inl (by simp)⟩
            · cases hrec : unflattenGo rt rd rr freshObjNode rest with
              | error e => rw [hrec] at h; simp at h
              | ok pr =>
                rw [hrec] at h
                simp only [ok_bind] at h
                cases h
                exact ⟨by simp, by simp, Or.inl (by simp)⟩
        · -- plain property
          split at h
          · split at h
            · cases h; exact ⟨by simp, by simp, Or.inl (by simp)⟩
            · cases h; exact ⟨by simp, by simp, Or.inl (by simp)⟩
          · rename_i hrest
            split at h
            · rename_i c hc
              cases hrec : unflattenGo rt rd rr c rest with
              | error e => rw [hrec] at h; simp at h
              | ok pr =>
                rw [hrec] at h
                simp only [ok_bind] at h
                cases h
                exact ⟨by simp, by simp, Or.inl (by simp)⟩
            · cases hrec : unflattenGo rt rd rr freshObjNode rest with
              | error e => rw [hrec] at h; simp at h
              | ok pr =>
                rw [hrec] at h
                simp only [ok_bind] at h
                cases h
                exact ⟨by simp, by simp, Or.inl (by simp)⟩

theorem processRow_top (st : UTree × List String) (row : FlatRow) (st' : UTree × List String)
    (h : processRow st row = .ok st') :
    st'.1.ref = st.1.ref ∧ st'.1.description = st.1.description ∧
      (st'.1.type = st.1.type ∨ (st'.1.type = some "array" ∧ firstSegEmpty row.path = true)) := by
  simp only [processRow] at h
  split at h
  · cases h; exact ⟨rfl, rfl, Or.inl rfl⟩
  · split at h
    · cases h; exact ⟨rfl, rfl, Or.inl rfl⟩
    · cases hrec : unflattenGo row.type row.description row.ref st.1 (splitOnChar '.' row.path) with
      | error e => rw [hrec] at h; simp at h
      | ok pr =>
        rw [hrec] at h
        simp only [ok_bind] at h
        cases h
        have := unflattenGo_top row.type row.description row.ref st.1
          (splitOnChar '.' row.path) pr.1 pr.2 (by rw [hrec])
        refine ⟨this.1, this.2.1, ?_⟩
        rcases this.2.2 with ht | ⟨ht, hseg⟩
        · exact Or.inl ht
        · exact Or.inr ⟨ht, by simpa [firstSegEmpty] using hseg⟩

theorem unflatten_fold_inv (rows : List FlatRow) :
    ∀ (st res : UTree × List String), List.foldlM processRow st rows = .ok res →
      res.1.ref = st.1.ref ∧ res.1.description = st.1.description ∧
        (res.1.type = st.1.type ∨
          (res.1.type = some "array" ∧ ∃ r ∈ rows, firstSegEmpty r.path = true)) := by
  induction rows with
  | nil =>
    intro st res h
    simp only [List.foldlM_nil] at h
    cases h
    exact ⟨rfl, rfl, Or.inl rfl⟩
  | cons r rs ih =>
    intro st res h
    rw [List.foldlM_cons] at h
    cases h1 : processRow st r with
    | error e => rw [h1] at h; simp at h
    | ok st1 =>
      rw [h1] at h
      simp only [ok_bind] at h
      have hstep := processRow_top st r st1 h1
      have hrest := ih st1 res h
      refine ⟨hrest.1.trans hstep.1, hrest.2.1.trans hstep.2.1, ?_⟩
      rcases hrest.2.2 with ht | ⟨ht, r', hr', hseg⟩
      · rcases hstep.2.2 with ht2 | ⟨ht2, hseg2⟩
        · exact Or.inl (ht.trans ht2)
        · exact Or.inr ⟨ht.trans ht2, r, List.mem_cons_self r rs, hseg2⟩
      · exact Or.inr ⟨ht, r', List.mem_cons_of_mem r hr', hseg⟩

/-- C10 amended: rows with an empty path are discarded and have no
effect; the root never receives a description or a reference from any row,
and it becomes an `Array` only when some row's path begins with an empty
first segment — with or without the `[]` suffix (e.g. paths starting with
`"[]"` or `"."`). -/
theorem C10_root_rows_and_array_condition :
    (∀ (row : FlatRow) (rest : List FlatRow), row.path = "" →
      unflattenSchema (row :: rest) = unflattenSchema rest)
    ∧ (∀ (rows : List FlatRow) (t : UTree), unflattenSchema rows = .ok t →
        t.ref = none ∧ t.description = none ∧
          (t.type = some "array" → ∃ r ∈ rows, firstSegEmpty r.path = true)) := by
  constructor
  · intro row rest hpath
    simp [unflattenSchema, List.foldlM_cons, processRow, hpath]
  · intro rows t h
    unfold unflattenSchema at h
    cases hfold : List.foldlM processRow
        (UTree.mk (some "object") none (some []) none none none, ([] : List String)) rows with
    | error e => rw [hfold] at h; simp at h
    | ok res =>
      rw [hfold] at h
      simp only [ok_bind] at h
      cases h
      have := unflatten_fold_inv rows _ res hfold
      refine ⟨by simpa [UTree.ref] using this.1, by simpa [UTree.description] using this.2.1, ?_⟩
      intro htype
      rcases this.2.2 with ht | ⟨_, hex⟩
      · rw [htype] at ht
        simp [UTree.type] at ht
      · exact hex

/-- C10 counterexample: a row whose path is `".a"` — an empty first
segment with no `[]` suffix — also turns the root into an array, so the
claim's "only when ... carrying the `[]` suffix" fails. -/
theorem C10_root_array_without_bracket_counterexample :
    rootTypeOf [⟨".a", "string", false, "", none, none, none⟩] = some "array"
    ∧ (splitOnChar '.' ".a").headD "" = ""
    ∧ strEndsWith ((splitOnChar '.' ".a").headD "") "[]" = false :=
  ⟨rfl, rfl, rfl⟩

/-- Witness for C10: the discard clause applied to a concrete empty-path
row. -/
theorem C10_root_rows_and_array_condition_witness :
    unflattenSchema [⟨"", "string", false, "", none, none, none⟩,
        ⟨"a", "string", false, "", none, none, none⟩] =
      unflattenSchema [⟨"a", "string", false, "", none, none, none⟩] :=
  C10_root_rows_and_array_condition.1 ⟨"", "string", false, "", none, none, none⟩
    [⟨"a", "string", false, "", none, none, none⟩] rfl

/-! ## Claim C2 -/

theorem methodStep_fst (pk1 : String) (rops : List (String × SpecOp))
    (acc : Int × List String) (m : String × SpecOp) :
    (methodStep pk1 rops acc m).1 =
      acc.1 + (match lookupStr rops m.1 with | none => 1 | some _ => 0) := by
  unfold methodStep
  cases lookupStr rops m.1 with
  | none => simp
  | some restOp => simp only []; split_ifs <;> simp

theorem methodsFold_fst (pk1 : String) (rops : List (String × SpecOp))
    (ms : List (String × SpecOp)) :
    ∀ acc : Int × List String,
      (List.foldl (methodStep pk1 rops) acc ms).1 = acc.1 + missingMethodsCount rops ms := by
  induction ms with
  | nil => intro acc; simp [missingMethodsCount]
  | cons m ms ih =>
    intro acc
    rw [List.foldl_cons]
    rw [ih]
    rw [methodStep_fst]
    simp only [missingMethodsCount]
    ring

theorem pathStep_fst (restPaths : List (String × List (String × SpecOp)))
    (acc : Int × List String) (pk : String × List (String × SpecOp)) :
    (pathStep restPaths acc pk).1 =
      acc.1 + (match lookupStr restPaths pk.1 with
        | none => 1
        | some rops => missingMethodsCount rops pk.2) := by
  unfold pathStep
  cases lookupStr restPaths pk.1 with
  | none => simp
  | some rops => simp [methodsFold_fst]

theorem pathsDiff_fst (restPaths : List (String × List (String × SpecOp)))
    (origPaths : List (String × List (String × SpecOp))) :
    ∀ acc : Int × List String,
      (pathsDiff restPaths acc origPaths).1 = acc.1 + missingPathsCount restPaths origPaths := by
  induction origPaths with
  | nil => intro acc; simp [pathsDiff, missingPathsCount]
  | cons pk ps ih =>
    intro acc
    unfold pathsDiff at ih ⊢
    rw [List.foldl_cons]
    rw [ih]
    rw [pathStep_fst]
    simp only [missingPathsCount]
    ring

/-- C2 amended: the score is `max(0, 100 − 5 × D)` where `D` counts one
unit per server-length and per tag-length mismatch, one per missing path
and per missing method, and — for a component-schema count mismatch — the
**signed** difference `origCount − restCount` (not its absolute value), so
a restored spec with more components lowers `D` and can push the score
above 100.  A title mismatch contributes no deduction.  The second and
third conjuncts are the claim's worked examples (score 90, then 85); the
fourth shows a title mismatch reported at full score. -/
theorem C2_score_formula_signed :
    (∀ (o r : SpecDoc) (s : Int) (rep : List String), diffSpecs o r = .ok (s, rep) →
      s = max 0 (100 - 5 * claimedDeductions o r))
    ∧ validateSpecFidelity (.ok (o3, r1)) = (90, ["Missing Path: p2", "Missing Path: p3"])
    ∧ validateSpecFidelity (.ok ({o3 with componentSchemas := some ["A"]}, r1)) =
        (85, ["Missing Components: Expected 1, got 0", "Missing Path: p2", "Missing Path: p3"])
    ∧ validateSpecFidelity (.ok (docBase, {docBase with info := some ⟨some "U"⟩})) =
        (100, ["Title mismatch: \"T\" vs \"U\""]) := by
  refine ⟨fun o r s rep h => ?_, rfl, rfl, rfl⟩
  unfold diffSpecs at h
  by_cases ht : (o.info.bind SpecInfo.title) ≠ (r.info.bind SpecInfo.title)
  · rw [if_pos ht] at h
    cases ho : o.info with
    | none => rw [ho] at h; simp at h
    | some oi =>
      rw [ho] at h
      cases hr : r.info with
      | none => rw [hr] at h; simp at h
      | some ri =>
        rw [hr] at h
        simp only [ok_bind] at h
        rw [pathsDiff_fst] at h
        injection h with h1
        injection h1 with hs hrep
        rw [← hs]
        unfold claimedDeductions
        split_ifs <;> ring_nf
  · rw [if_neg ht] at h
    simp only [ok_bind] at h
    rw [pathsDiff_fst] at h
    injection h with h1
    injection h1 with hs hrep
    rw [← hs]
    unfold claimedDeductions
    split_ifs <;> ring_nf

/-- C2 counterexample: with zero original components and one restored
component the code adds the signed difference `0 − 1 = −1`, yielding score
105 — not the 95 the claimed `|difference|` rule would give (and above the
documented 0–100 range). -/
theorem C2_component_mismatch_counterexample :
    validateSpecFidelity (.ok ({docBase with componentSchemas := some []},
        {docBase with componentSchemas := some ["A"]})) =
      (105, ["Missing Components: Expected 0, got 1"])
    ∧ (105 : Int) ≠ max 0 (100 - 5 * 1) :=
  ⟨rfl, by decide⟩

/-- Witness for C2: the score formula applied to the three-path example. -/
theorem C2_score_formula_signed_witness :
    (90 : Int) = max 0 (100 - 5 * claimedDeductions o3 r1) :=
  C2_score_formula_signed.1 o3 r1 90 ["Missing Path: p2", "Missing Path: p3"] rfl

end SpecWeaver
